import Mathlib

/-
Verification of the resource-handle lifecycle and serialization layer of the
node-seal wrapper library.

The JavaScript source is embedded shallowly:

* Native (WASM) objects live in an explicit heap `Heap`: a list of slots
  (`none` = destroyed) plus a log of destructor invocations.  A handle is the
  slot index (a `Nat`).
* Each wrapper class (`RelinKeys`, `PublicKey`, `PlainText`, `Context`,
  `ParmsIdType`, `EncryptionParameterQualifiers`, `Evaluator`, and the
  spec-modelled `GaloisKeys`) becomes a structure holding
  `inst : Option Nat`, the translation of the `_instance` field
  (`null`/absent = `none`).
* A method becomes a function from the wrapper and the heap to a result;
  fallible methods return `Except JSError _`.  A thrown host `TypeError`
  (null dereference) is `JSError.typeError`; a raw native raise (an
  emscripten exception pointer, a number) is `JSError.nativeRaise`;
  a constructed `Error` carrying a message is `JSError.errorMsg`.
  The remaining constructors name the error taxonomy of the specification;
  the translated code never produces them, which is what several claims
  are about.
-/

namespace NodeSeal

/-- A JavaScript value as far as the error normalizer distinguishes values:
numbers, strings, Error objects (carrying a message), undefined, null and
other objects (carrying their stringification). -/
inductive JSValue where
  | num (n : Nat)
  | str (s : String)
  | errObj (msg : String)
  | undef
  | jsNull
  | obj (stringified : String)
deriving DecidableEq, Repr

/-- JavaScript truthiness for the values of `JSValue`. -/
def JSValue.truthy : JSValue → Bool
  | .num n => n != 0
  | .str s => s != ""
  | .errObj _ => true
  | .undef => false
  | .jsNull => false
  | .obj _ => true

/-- JavaScript string conversion, as applied by the `Error` constructor. -/
def JSValue.stringify : JSValue → String
  | .num n => toString n
  | .str s => s
  | .errObj m => "Error: " ++ m
  | .undef => "undefined"
  | .jsNull => "null"
  | .obj s => s

/-- Whether a `JSValue` is a well-formed Error object
(the `error instanceof Error` test). -/
def JSValue.isError : JSValue → Bool
  | .errObj _ => true
  | _ => false

/-- Translation of `Exception.getHuman({ pointer })`: resolves an emscripten
exception pointer through the native message-lookup function
`library.getException`, which is passed in as `g`. -/
def Exception.getHuman (g : Nat → String) (pointer : Nat) : String :=
  g pointer

/-- Translation of `Exception.safe({ error })`: a number is resolved through
`getHuman`; an `Error` instance is returned as-is; anything else is wrapped
in a fresh Error, stringified when truthy and replaced by the generic
unknown-error message otherwise. -/
def Exception.safe (g : Nat → String) (error : JSValue) : JSValue :=
  match error with
  | .num n => .errObj (Exception.getHuman g n)
  | .errObj m => .errObj m
  | e => .errObj (if e.truthy then e.stringify else "Unknown Error!")

/-- The shape of a thrown failure as the embedded methods observe it. -/
inductive JSError where
  | typeError
  | errorMsg (msg : String)
  | nativeRaise (pointer : Nat)
  | useAfterReleaseError
  | invalidStateError
  | deserializationError
  | allocationError
deriving DecidableEq, Repr

/-- The value a caught `JSError` denotes when handed to `Exception.safe`:
a native raise is the thrown number, a host `TypeError` or a constructed
`Error` is an Error object.  The taxonomy-only constructors do not arise
from the translated code; they map to Error objects carrying their name. -/
def JSError.toValue : JSError → JSValue
  | .typeError => .errObj "TypeError"
  | .errorMsg m => .errObj m
  | .nativeRaise p => .num p
  | .useAfterReleaseError => .errObj "UseAfterReleaseError"
  | .invalidStateError => .errObj "InvalidStateError"
  | .deserializationError => .errObj "DeserializationError"
  | .allocationError => .errObj "AllocationError"

/-- Rethrowing after `throw Exception.safe(e)` in a catch block: a numeric
native raise becomes an `Error` with the looked-up message; an `Error`
instance (including a host `TypeError`) is rethrown as-is. -/
def safeErr (g : Nat → String) : JSError → JSError
  | .nativeRaise p => .errorMsg (g p)
  | e => e

/-- A try/catch whose catch clause is `throw Exception.safe(e)`. -/
def tryCatchSafe (g : Nat → String) (r : Except JSError α) : Except JSError α :=
  match r with
  | .ok a => .ok a
  | .error e => .error (safeErr g e)

/-- The state of one native (WASM-allocated) object.  Its `data` field stands
for the whole opaque native state; equality of `data` is observational
equality of the native objects. -/
structure NativeObj where
  data : String
deriving DecidableEq, Repr

/-- The native heap: slot `i` holds the object owned by handle `i`
(`none` once destroyed), and `log` records every destructor invocation,
in order, so that claims about the exact number of releases are statable. -/
structure Heap where
  mem : List (Option NativeObj)
  log : List Nat
deriving DecidableEq, Repr

/-- Dereference a handle: the live object at that slot, if any. -/
def Heap.get (h : Heap) (id : Nat) : Option NativeObj :=
  h.mem.getD id none

/-- Overwrite the native state behind a live handle (native assignment). -/
def Heap.set (h : Heap) (id : Nat) (o : NativeObj) : Heap :=
  { h with mem := h.mem.set id (some o) }

/-- The native destructor: clears the slot and logs the invocation. -/
def Heap.free (h : Heap) (id : Nat) : Heap :=
  { mem := h.mem.set id none, log := h.log ++ [id] }

/-- The native allocator: appends a fresh slot and returns its handle. -/
def Heap.alloc (h : Heap) (o : NativeObj) : Nat × Heap :=
  (h.mem.length, { h with mem := h.mem ++ [some o] })

/-- Compression modes of the native `ComprModeType` enumeration. -/
inductive ComprMode where
  | none
  | deflate
deriving DecidableEq, Repr

/-- Modelled from the spec: the tag character with which the native codec
marks the compression mode of an encoding (the native codec itself is part
of the engine, not of the repository). -/
def ComprMode.tag : ComprMode → Char
  | .none => 'n'
  | .deflate => 'z'

/-- Modelled from the spec: recover a compression mode from its tag. -/
def tagToMode (c : Char) : Option ComprMode :=
  if c = 'n' then some ComprMode.none
  else if c = 'z' then some ComprMode.deflate
  else Option.none

/-- Modelled from the spec: the native `saveToString` output, a
deterministic self-describing encoding consisting of a mode tag followed by
the payload. -/
def encode (m : ComprMode) (d : String) : String :=
  String.mk (m.tag :: d.data)

/-- Modelled from the spec: the parse performed by the native
`loadFromString`; an empty input or an unknown mode tag is malformed. -/
def decode (s : String) : Option (ComprMode × String) :=
  match s.data with
  | [] => Option.none
  | c :: rest => (tagToMode c).map (fun m => (m, String.mk rest))

/-- The raw native call behind `saveToString` on a handle: succeeds on a
live handle, raises (the emscripten pointer is modelled as the handle id)
on a destroyed one. -/
def Heap.saveToString (h : Heap) (id : Nat) (m : ComprMode) : Except JSError String :=
  match h.get id with
  | some o => .ok (encode m o.data)
  | Option.none => .error (.nativeRaise id)

/-- Modelled from the spec: the exception pointer raised by the native
`loadFromString` when its input is malformed. -/
def loadFailPtr : Nat := 7

/-- The raw native call behind `loadFromString` on a handle: on a live
handle and well-formed input it replaces the native state by the decoded
payload (mode-transparently); on malformed input it raises; on a destroyed
handle it raises.  The first component of the result is the heap after the
call, unchanged whenever the call fails. -/
def Heap.loadFromString (h : Heap) (id : Nat) (encoded : String) :
    Heap × Except JSError Unit :=
  match h.get id with
  | Option.none => (h, .error (.nativeRaise id))
  | some _ =>
    match decode encoded with
    | some (_, d) => (h.set id ⟨d⟩, .ok ())
    | Option.none => (h, .error (.nativeRaise loadFailPtr))

/-- Wrapper state of `RelinKeys` (src/src/classes/relin-keys.js):
the `_instance` slot, `null` translated as `none`. -/
structure RelinKeys where
  inst : Option Nat
deriving DecidableEq, Repr

/-- `new RelinKeys({library})`: allocates a fresh empty native object and
stores its handle in the `_instance` slot. -/
def RelinKeys.construct (h : Heap) : RelinKeys × Heap :=
  let (id, h1) := h.alloc ⟨""⟩
  (⟨some id⟩, h1)

/-- `RelinKeys.inject({instance})`: if `_instance` is non-null it is
destroyed natively (`this._instance.delete()`) and nulled, then the incoming
handle is stored. -/
def RelinKeys.inject (w : RelinKeys) (h : Heap) (incoming : Nat) : RelinKeys × Heap :=
  match w.inst with
  | some old => (⟨some incoming⟩, h.free old)
  | Option.none => (⟨some incoming⟩, h)

/-- `RelinKeys.save({compression})`: forwards to
`this._instance.saveToString(compression)`; with `_instance` null the
member access faults with a host TypeError.  The default compression is
`ComprModeType.deflate`. -/
def RelinKeys.save (w : RelinKeys) (h : Heap) (compression : ComprMode) :
    Except JSError String :=
  match w.inst with
  | some id => h.saveToString id compression
  | Option.none => .error .typeError

/-- `RelinKeys.load({context, encoded})`: forwards to
`this._instance.loadFromString(context.instance, encoded)` with no
try/catch, so whatever the native layer raises escapes raw; with
`_instance` null the member access faults with a host TypeError.  The
returned heap is the heap after the call. -/
def RelinKeys.load (w : RelinKeys) (h : Heap) (encoded : String) :
    Heap × Except JSError Unit :=
  match w.inst with
  | some id => h.loadFromString id encoded
  | Option.none => (h, .error .typeError)

/-- Wrapper state of `PublicKey` (same source file as `RelinKeys`). -/
structure PublicKey where
  inst : Option Nat
deriving DecidableEq, Repr

/-- `PublicKey.inject({instance})`: the source runs
`if (this._instance) { delete this._instance }` — the JavaScript `delete`
operator removes the property but never invokes the native destructor —
and then stores the incoming handle.  The heap is untouched in both
branches, so the old native object stays alive (it leaks). -/
def PublicKey.inject (w : PublicKey) (h : Heap) (incoming : Nat) : PublicKey × Heap :=
  match w.inst with
  | some _ => (⟨some incoming⟩, h)
  | Option.none => (⟨some incoming⟩, h)

/-- `PublicKey.save()`: forwards to `this._instance.saveToString()` (the
native default mode, deflate); with `_instance` null the member access
faults with a host TypeError. -/
def PublicKey.save (w : PublicKey) (h : Heap) : Except JSError String :=
  match w.inst with
  | some id => h.saveToString id ComprMode.deflate
  | Option.none => .error .typeError

/-- Wrapper state of `PlainText` (factory in src/src/components, same file
as `ParmsIdType` and `SchemeType`). -/
structure PlainText where
  inst : Option Nat
deriving DecidableEq, Repr

/-- `PlainText({library})`: allocates `new library.Plaintext()`. -/
def PlainText.construct (h : Heap) : PlainText × Heap :=
  let (id, h1) := h.alloc ⟨""⟩
  (⟨some id⟩, h1)

/-- `PlainText.inject({instance})`: same shape as `RelinKeys.inject` —
destroy the held native object first, then absorb the incoming handle. -/
def PlainText.inject (w : PlainText) (h : Heap) (incoming : Nat) : PlainText × Heap :=
  match w.inst with
  | some old => (⟨some incoming⟩, h.free old)
  | Option.none => (⟨some incoming⟩, h)

/-- `PlainText.isZero()`: forwards to `this._instance.isZero()`.  The zero
predicate of the native object is modelled as emptiness of its state; with
`_instance` null the member access faults with a host TypeError. -/
def PlainText.isZero (w : PlainText) (h : Heap) : Except JSError Bool :=
  match w.inst with
  | some id =>
    match h.get id with
    | some o => .ok (o.data == "")
    | Option.none => .error (.nativeRaise id)
  | Option.none => .error .typeError

/-- `PlainText.save({compression})`, default `ComprModeType.deflate`. -/
def PlainText.save (w : PlainText) (h : Heap) (compression : ComprMode) :
    Except JSError String :=
  match w.inst with
  | some id => h.saveToString id compression
  | Option.none => .error .typeError

/-- `PlainText.load({context, encoded})`: like `RelinKeys.load`, forwards
with no try/catch. -/
def PlainText.load (w : PlainText) (h : Heap) (encoded : String) :
    Heap × Except JSError Unit :=
  match w.inst with
  | some id => h.loadFromString id encoded
  | Option.none => (h, .error .typeError)

/-- Wrapper state of the `Context` factory. -/
structure SealContext where
  inst : Option Nat
deriving DecidableEq, Repr

/-- `Context#unsafeInject(instance)` (the source name carries a prefix this
development cannot use as an identifier): destroy the held native object
first, then absorb the incoming handle. -/
def SealContext.injectRaw (w : SealContext) (h : Heap) (incoming : Nat) :
    SealContext × Heap :=
  match w.inst with
  | some old => (⟨some incoming⟩, h.free old)
  | Option.none => (⟨some incoming⟩, h)

/-- `Context#delete()`: `if (_instance) { _instance.delete(); _instance = null }`. -/
def SealContext.delete (w : SealContext) (h : Heap) : SealContext × Heap :=
  match w.inst with
  | some id => (⟨Option.none⟩, h.free id)
  | Option.none => (w, h)

/-- `Context#parametersSet` (getter): `return _instance.parametersSet()`
with no try/catch, so a native raise escapes raw; with `_instance` null the
call faults with a host TypeError.  The boolean the engine computes is
abstract and supplied as `nps`. -/
def SealContext.parametersSet (nps : NativeObj → Bool) (w : SealContext) (h : Heap) :
    Except JSError Bool :=
  match w.inst with
  | some id =>
    match h.get id with
    | some o => .ok (nps o)
    | Option.none => .error (.nativeRaise id)
  | Option.none => .error .typeError

/-- Wrapper state of the `ParmsIdType` factory. -/
structure ParmsIdType where
  inst : Option Nat
deriving DecidableEq, Repr

/-- `ParmsIdType#delete()`: `if (_instance) { _instance.delete(); _instance = null }`. -/
def ParmsIdType.delete (w : ParmsIdType) (h : Heap) : ParmsIdType × Heap :=
  match w.inst with
  | some id => (⟨Option.none⟩, h.free id)
  | Option.none => (w, h)

/-- Wrapper state of the `EncryptionParameterQualifiers` factory
(src/src/components/encryption-parameter-qualifiers.js). -/
structure EPQualifiers where
  inst : Option Nat
deriving DecidableEq, Repr

/-- `EncryptionParameterQualifiers.inject({instance})`: destroy the held
native object first, then absorb the incoming handle. -/
def EPQualifiers.inject (w : EPQualifiers) (h : Heap) (incoming : Nat) :
    EPQualifiers × Heap :=
  match w.inst with
  | some old => (⟨some incoming⟩, h.free old)
  | Option.none => (⟨some incoming⟩, h)

/-- `EncryptionParameterQualifiers#delete()`. -/
def EPQualifiers.delete (w : EPQualifiers) (h : Heap) : EPQualifiers × Heap :=
  match w.inst with
  | some id => (⟨Option.none⟩, h.free id)
  | Option.none => (w, h)

/-- `EncryptionParameterQualifiers#parametersSet` (getter): the same native
read as `SealContext.parametersSet`, but wrapped in
`try { ... } catch (e) { throw _Exception.safe({ error: e }) }`. -/
def EPQualifiers.parametersSet (g : Nat → String) (nps : NativeObj → Bool)
    (w : EPQualifiers) (h : Heap) : Except JSError Bool :=
  tryCatchSafe g
    (match w.inst with
     | some id =>
       match h.get id with
       | some o => .ok (nps o)
       | Option.none => .error (.nativeRaise id)
     | Option.none => .error .typeError)

/-- Wrapper state of a `CipherText` wrapper as the `Evaluator` consumes and
produces it: the `_instance` slot of the wrapper object. -/
structure CipherText where
  inst : Option Nat
deriving DecidableEq, Repr

/-- The raw native call behind a unary engine operation (negate, the NTT
transforms): reads the source object and writes `f` of its state into the
destination slot; an absent (null) or destroyed handle on either side makes
the engine raise. -/
def Heap.unaryInto (f : String → String) (h : Heap) (src dst : Option Nat) :
    Heap × Except JSError Unit :=
  match src, dst with
  | some s, some d =>
    match h.get s, h.get d with
    | some so, some _ => (h.set d ⟨f so.data⟩, .ok ())
    | _, _ => (h, .error (.nativeRaise loadFailPtr))
  | _, _ => (h, .error (.nativeRaise loadFailPtr))

/-- The raw native call behind a binary engine operation (add, addPlain):
reads both operands and writes `f` of their states into the destination
slot; an absent or destroyed handle makes the engine raise. -/
def Heap.binInto (f : String → String → String) (h : Heap) (a b dst : Option Nat) :
    Heap × Except JSError Unit :=
  match a, b, dst with
  | some ia, some ib, some d =>
    match h.get ia, h.get ib, h.get d with
    | some oa, some ob, some _ => (h.set d ⟨f oa.data ob.data⟩, .ok ())
    | _, _, _ => (h, .error (.nativeRaise loadFailPtr))
  | _, _, _ => (h, .error (.nativeRaise loadFailPtr))

/-- Wrapper state of the curried `Evaluator` factory
(src/src/components/evaluator.js, first variant). -/
structure Evaluator where
  inst : Option Nat
deriving DecidableEq, Repr

/-- `Evaluator#inject(instance)`: destroy the held native object first,
then absorb the incoming handle. -/
def Evaluator.inject (w : Evaluator) (h : Heap) (incoming : Nat) : Evaluator × Heap :=
  match w.inst with
  | some old => (⟨some incoming⟩, h.free old)
  | Option.none => (⟨some incoming⟩, h)

/-- `Evaluator#negate(encrypted, destination)`: with a destination, runs the
native negate into it and returns undefined; without one, allocates
`const temp = CipherText()`, negates into it and returns it.  The body is
wrapped in `try { ... } catch (e) { throw Exception.safe(e) }`.  `nneg` is
the abstract native negate on object states; a null `_instance` on the
evaluator makes the method call fault with a host TypeError. -/
def Evaluator.negate (g : Nat → String) (nneg : String → String)
    (w : Evaluator) (h : Heap) (encrypted : CipherText)
    (destination : Option CipherText) :
    Heap × Except JSError (Option CipherText) :=
  match w.inst with
  | Option.none => (h, .error .typeError)
  | some _ =>
    match destination with
    | some dst =>
      match h.unaryInto nneg encrypted.inst dst.inst with
      | (h1, .ok ()) => (h1, .ok Option.none)
      | (h1, .error e) => (h1, .error (safeErr g e))
    | Option.none =>
      let (tid, h1) := h.alloc ⟨""⟩
      match h1.unaryInto nneg encrypted.inst (some tid) with
      | (h2, .ok ()) => (h2, .ok (some ⟨some tid⟩))
      | (h2, .error e) => (h2, .error (safeErr g e))

/-- `Evaluator#add(a, b, destination)`: same shape as `negate` with the
abstract native add `nadd`. -/
def Evaluator.add (g : Nat → String) (nadd : String → String → String)
    (w : Evaluator) (h : Heap) (a b : CipherText)
    (destination : Option CipherText) :
    Heap × Except JSError (Option CipherText) :=
  match w.inst with
  | Option.none => (h, .error .typeError)
  | some _ =>
    match destination with
    | some dst =>
      match h.binInto nadd a.inst b.inst dst.inst with
      | (h1, .ok ()) => (h1, .ok Option.none)
      | (h1, .error e) => (h1, .error (safeErr g e))
    | Option.none =>
      let (tid, h1) := h.alloc ⟨""⟩
      match h1.binInto nadd a.inst b.inst (some tid) with
      | (h2, .ok ()) => (h2, .ok (some ⟨some tid⟩))
      | (h2, .error e) => (h2, .error (safeErr g e))

/-- `Evaluator#addPlain(encrypted, plain, destination)`: with a destination
it runs the native addPlain into it and returns undefined.  WITHOUT a
destination the source allocates `const temp = CipherText()` but then
passes `destination.instance` — dereferencing the absent `destination`
argument — to the native call, so the branch always faults with a host
TypeError before any native call runs (the TypeError is caught and
rethrown as-is by `Exception.safe`), and the freshly allocated temp
object leaks.  `naddp` is the abstract native addPlain. -/
def Evaluator.addPlain (g : Nat → String) (naddp : String → String → String)
    (w : Evaluator) (h : Heap) (encrypted : CipherText)
    (plain : PlainText) (destination : Option CipherText) :
    Heap × Except JSError (Option CipherText) :=
  match w.inst with
  | Option.none => (h, .error .typeError)
  | some _ =>
    match destination with
    | some dst =>
      match h.binInto naddp encrypted.inst plain.inst dst.inst with
      | (h1, .ok ()) => (h1, .ok Option.none)
      | (h1, .error e) => (h1, .error (safeErr g e))
    | Option.none =>
      let (_, h1) := h.alloc ⟨""⟩
      (h1, .error (safeErr g .typeError))

/-- `Evaluator#cipherTransformToNtt(encrypted, destinationNtt)`: the
forward NTT, same shape as `negate` with the abstract native forward
transform `ntoNtt`. -/
def Evaluator.cipherTransformToNtt (g : Nat → String) (ntoNtt : String → String)
    (w : Evaluator) (h : Heap) (encrypted : CipherText)
    (destinationNtt : Option CipherText) :
    Heap × Except JSError (Option CipherText) :=
  match w.inst with
  | Option.none => (h, .error .typeError)
  | some _ =>
    match destinationNtt with
    | some dst =>
      match h.unaryInto ntoNtt encrypted.inst dst.inst with
      | (h1, .ok ()) => (h1, .ok Option.none)
      | (h1, .error e) => (h1, .error (safeErr g e))
    | Option.none =>
      let (tid, h1) := h.alloc ⟨""⟩
      match h1.unaryInto ntoNtt encrypted.inst (some tid) with
      | (h2, .ok ()) => (h2, .ok (some ⟨some tid⟩))
      | (h2, .error e) => (h2, .error (safeErr g e))

/-- `Evaluator#cipherTransformFromNtt(encryptedNtt, destination)`: with a
destination the source runs the native inverse transform
(`_instance.cipherTransformFromNtt`) into it; WITHOUT a destination the
source allocates a temp but then calls `_instance.cipherTransformToNtt` —
the FORWARD transform — into the temp and returns it.  `nfromNtt` and
`ntoNtt` are the abstract native inverse and forward transforms. -/
def Evaluator.cipherTransformFromNtt (g : Nat → String)
    (ntoNtt nfromNtt : String → String)
    (w : Evaluator) (h : Heap) (encryptedNtt : CipherText)
    (destination : Option CipherText) :
    Heap × Except JSError (Option CipherText) :=
  match w.inst with
  | Option.none => (h, .error .typeError)
  | some _ =>
    match destination with
    | some dst =>
      match h.unaryInto nfromNtt encryptedNtt.inst dst.inst with
      | (h1, .ok ()) => (h1, .ok Option.none)
      | (h1, .error e) => (h1, .error (safeErr g e))
    | Option.none =>
      let (tid, h1) := h.alloc ⟨""⟩
      match h1.unaryInto ntoNtt encryptedNtt.inst (some tid) with
      | (h2, .ok ()) => (h2, .ok (some ⟨some tid⟩))
      | (h2, .error e) => (h2, .error (safeErr g e))

/-- Modelled from the spec: the `GaloisKeys` component is not under src/
(only its test file is), so its wrapper state follows the spec and the
uniform wrapper contract its sibling kinds implement. -/
structure GaloisKeys where
  inst : Option Nat
deriving DecidableEq, Repr

/-- Modelled from the spec: `GaloisKeys()` allocates a fresh empty native
object, like the sibling constructors. -/
def GaloisKeys.construct (h : Heap) : GaloisKeys × Heap :=
  let (id, h1) := h.alloc ⟨""⟩
  (⟨some id⟩, h1)

/-- Modelled from the spec: `GaloisKeys#inject(instance)` releases the held
handle first (exactly one native release), then absorbs the incoming one —
the behavior its test file exercises and the sibling kinds implement. -/
def GaloisKeys.inject (w : GaloisKeys) (h : Heap) (incoming : Nat) :
    GaloisKeys × Heap :=
  match w.inst with
  | some old => (⟨some incoming⟩, h.free old)
  | Option.none => (⟨some incoming⟩, h)

/-- Modelled from the spec: `GaloisKeys#delete()` destroys the held handle
and nulls the slot, and is a no-op on an empty slot. -/
def GaloisKeys.delete (w : GaloisKeys) (h : Heap) : GaloisKeys × Heap :=
  match w.inst with
  | some id => (⟨Option.none⟩, h.free id)
  | Option.none => (w, h)

/-- Modelled from the spec: `GaloisKeys#save()` forwards to the native
`saveToString` with the default compression mode; a null slot makes the
member access fault with a host TypeError (as its test expects). -/
def GaloisKeys.save (w : GaloisKeys) (h : Heap) : Except JSError String :=
  match w.inst with
  | some id => h.saveToString id ComprMode.deflate
  | Option.none => .error .typeError

/-- Modelled from the spec: `GaloisKeys#move(src)` transfers the handle of
`src` into `this` (equivalent to `inject(this, take(src))`), leaving `src`
with no handle; it fails with `InvalidStateError` when `src` holds no
handle.  The result carries the updated destination, the updated source and
the heap. -/
def GaloisKeys.move (dst src : GaloisKeys) (h : Heap) :
    Except JSError (GaloisKeys × GaloisKeys × Heap) :=
  match src.inst with
  | Option.none => .error .invalidStateError
  | some id =>
    let (dst1, h1) := dst.inject h id
    .ok (dst1, ⟨Option.none⟩, h1)

theorem safeErr_agrees_with_safe (g : Nat → String) (e : JSError) :
    (safeErr g e).toValue = Exception.safe g e.toValue := by
  cases e <;> simp [safeErr, JSError.toValue, Exception.safe, Exception.getHuman,
    JSValue.truthy, JSValue.stringify]

theorem decode_encode (m : ComprMode) (d : String) :
    decode (encode m d) = some (m, d) := by
  cases d
  cases m <;> simp [decode, encode, ComprMode.tag, tagToMode]

theorem listGetD_set_none {α : Type} :
    ∀ (l : List (Option α)) (i : Nat),
      (l.set i Option.none).getD i Option.none = Option.none := by
  intro l
  induction l with
  | nil => intro i; rfl
  | cons x xs ih =>
    intro i
    cases i with
    | zero => rfl
    | succ j => simpa using ih j

theorem listGetD_concat_length {α : Type} :
    ∀ (l : List (Option α)) (x : Option α),
      (l ++ [x]).getD l.length Option.none = x := by
  intro l
  induction l with
  | nil => intro x; rfl
  | cons y ys ih => intro x; exact ih x

theorem listGetD_set_some {α : Type} :
    ∀ (l : List (Option α)) (i : Nat) (a b : α),
      l.getD i Option.none = some b →
      (l.set i (some a)).getD i Option.none = some a := by
  intro l
  induction l with
  | nil => intro i a b hb; simp [List.getD] at hb
  | cons x xs ih =>
    intro i a b hb
    cases i with
    | zero => rfl
    | succ j =>
      simp only [List.set_cons_succ]
      simpa using ih j a b (by simp_all)

theorem listGetD_set_ne {α : Type} :
    ∀ (l : List (Option α)) (i j : Nat) (a : Option α), i ≠ j →
      (l.set j a).getD i Option.none = l.getD i Option.none := by
  intro l
  induction l with
  | nil => intro i j a _; rfl
  | cons x xs ih =>
    intro i j a hne
    cases j with
    | zero =>
      cases i with
      | zero => exact absurd rfl hne
      | succ i2 => rfl
    | succ j2 =>
      cases i with
      | zero => rfl
      | succ i2 =>
        simp only [List.set_cons_succ]
        simpa using ih i2 j2 a (fun he => hne (by rw [he]))

theorem Heap.get_free_self (h : Heap) (id : Nat) :
    (h.free id).get id = Option.none := by
  simpa [Heap.free, Heap.get] using listGetD_set_none h.mem id

theorem Heap.get_free_ne (h : Heap) (id j : Nat) (hne : id ≠ j) :
    (h.free j).get id = h.get id := by
  exact listGetD_set_ne h.mem id j Option.none hne

theorem Heap.get_alloc (h : Heap) (o : NativeObj) :
    ((h.alloc o).2).get (h.alloc o).1 = some o := by
  exact listGetD_concat_length h.mem (some o)

theorem Heap.get_set_self (h : Heap) (id : Nat) (o b : NativeObj)
    (hb : h.get id = some b) : (h.set id o).get id = some o := by
  exact listGetD_set_some h.mem id o b hb

/-- Claim C4: for every modelled wrapper kind with a release operation
(`ParmsIdType`, `Context`, `EncryptionParameterQualifiers`, and the
spec-modelled `GaloisKeys`), release is idempotent: it is a total function
(never faults), the instance slot is absent after the first call, and the
second call returns the state after the first call unchanged — so the slot is also
absent after the second call and no second destructor invocation is
logged. -/
theorem c4_release_idempotent (w : ParmsIdType) (c : SealContext)
    (q : EPQualifiers) (k : GaloisKeys) (h : Heap) :
    (ParmsIdType.delete w h).1.inst = Option.none ∧
    ParmsIdType.delete (ParmsIdType.delete w h).1 (ParmsIdType.delete w h).2 =
      ParmsIdType.delete w h ∧
    (SealContext.delete c h).1.inst = Option.none ∧
    SealContext.delete (SealContext.delete c h).1 (SealContext.delete c h).2 =
      SealContext.delete c h ∧
    (EPQualifiers.delete q h).1.inst = Option.none ∧
    EPQualifiers.delete (EPQualifiers.delete q h).1 (EPQualifiers.delete q h).2 =
      EPQualifiers.delete q h ∧
    (GaloisKeys.delete k h).1.inst = Option.none ∧
    GaloisKeys.delete (GaloisKeys.delete k h).1 (GaloisKeys.delete k h).2 =
      GaloisKeys.delete k h := by
  obtain ⟨_ | wi⟩ := w <;> obtain ⟨_ | ci⟩ := c <;> obtain ⟨_ | qi⟩ := q <;>
    obtain ⟨_ | ki⟩ := k <;>
    simp [ParmsIdType.delete, SealContext.delete, EPQualifiers.delete,
      GaloisKeys.delete]

/-- Claim C5: the error normalizer always returns an Error value and never
throws (it is a total function into values): a numeric input is resolved
through the native message-lookup function `g`; an input that is already an
Error object is returned as-is; any other truthy input is stringified into
an Error; an absent or empty input (undefined, null, the empty string)
yields the generic unknown-error value. -/
theorem c5_exception_safe_total_normalizer (g : Nat → String) (n : Nat)
    (m s t : String) (v : JSValue) :
    (Exception.safe g v).isError = true ∧
    Exception.safe g (.num n) = .errObj (Exception.getHuman g n) ∧
    Exception.safe g (.errObj m) = .errObj m ∧
    Exception.safe g (.str s) =
      .errObj (if s != "" then s else "Unknown Error!") ∧
    Exception.safe g (.obj t) = .errObj t ∧
    Exception.safe g .undef = .errObj "Unknown Error!" ∧
    Exception.safe g .jsNull = .errObj "Unknown Error!" := by
  refine ⟨?_, rfl, rfl, ?_, rfl, rfl, rfl⟩
  · cases v <;> simp [Exception.safe, JSValue.isError]
  · by_cases hs : s = "" <;>
      simp [Exception.safe, JSValue.truthy, JSValue.stringify, hs]

/-- Claim C1 is false for the PublicKey wrapper kind: with the wrapper
holding handle 0 whose native object is alive, injecting handle 1 performs
ZERO releases — the destructor log stays empty, the old native object is
still alive in the heap (it leaks), and the heap is untouched — because the
source uses the JavaScript `delete` operator on the slot instead of the
native destructor. -/
theorem c1_publickey_inject_no_release_cex :
    (PublicKey.inject ⟨some 0⟩ ⟨[some ⟨"A"⟩], []⟩ 1).2 =
      (⟨[some ⟨"A"⟩], []⟩ : Heap) ∧
    Heap.get (PublicKey.inject ⟨some 0⟩ ⟨[some ⟨"A"⟩], []⟩ 1).2 0 =
      some ⟨"A"⟩ ∧
    (PublicKey.inject ⟨some 0⟩ ⟨[some ⟨"A"⟩], []⟩ 1).2.log = [] ∧
    (PublicKey.inject ⟨some 0⟩ ⟨[some ⟨"A"⟩], []⟩ 1).1.inst = some 1 :=
  ⟨rfl, rfl, rfl, rfl⟩

/-- Claim C1 amended: for the RelinKeys, PlainText, Context, Evaluator and
EncryptionParameterQualifiers wrapper kinds, inject releases the currently
held handle via the native destructor exactly once when one is held (the
destructor log grows by precisely that handle and its slot is cleared) and
performs no release when none is held, then absorbs the new handle into the
slot; PublicKey.inject instead installs the new handle WITHOUT invoking the
native destructor on the held one, leaving the old native object alive
(a leak) and the destructor log unchanged. -/
theorem c1_amended_inject_per_kind (h : Heap) (old incoming : Nat) :
    ((RelinKeys.inject ⟨some old⟩ h incoming).1.inst = some incoming ∧
     (RelinKeys.inject ⟨some old⟩ h incoming).2.log = h.log ++ [old] ∧
     (RelinKeys.inject ⟨some old⟩ h incoming).2.get old = Option.none ∧
     RelinKeys.inject ⟨Option.none⟩ h incoming = (⟨some incoming⟩, h)) ∧
    ((PlainText.inject ⟨some old⟩ h incoming).1.inst = some incoming ∧
     (PlainText.inject ⟨some old⟩ h incoming).2.log = h.log ++ [old] ∧
     PlainText.inject ⟨Option.none⟩ h incoming = (⟨some incoming⟩, h)) ∧
    ((SealContext.injectRaw ⟨some old⟩ h incoming).1.inst = some incoming ∧
     (SealContext.injectRaw ⟨some old⟩ h incoming).2.log = h.log ++ [old] ∧
     SealContext.injectRaw ⟨Option.none⟩ h incoming = (⟨some incoming⟩, h)) ∧
    ((Evaluator.inject ⟨some old⟩ h incoming).1.inst = some incoming ∧
     (Evaluator.inject ⟨some old⟩ h incoming).2.log = h.log ++ [old] ∧
     Evaluator.inject ⟨Option.none⟩ h incoming = (⟨some incoming⟩, h)) ∧
    ((EPQualifiers.inject ⟨some old⟩ h incoming).1.inst = some incoming ∧
     (EPQualifiers.inject ⟨some old⟩ h incoming).2.log = h.log ++ [old] ∧
     EPQualifiers.inject ⟨Option.none⟩ h incoming = (⟨some incoming⟩, h)) ∧
    ((PublicKey.inject ⟨some old⟩ h incoming).1.inst = some incoming ∧
     (PublicKey.inject ⟨some old⟩ h incoming).2 = h) := by
  refine ⟨⟨rfl, rfl, ?_, rfl⟩, ⟨rfl, rfl, rfl⟩, ⟨rfl, rfl, rfl⟩,
    ⟨rfl, rfl, rfl⟩, ⟨rfl, rfl, rfl⟩, rfl, rfl⟩
  exact Heap.get_free_self h old

/-- Claim C2 is false: a domain operation on a released wrapper does throw,
but with a host TypeError from dereferencing the cleared slot, not with a
UseAfterReleaseError — shown here on RelinKeys.save after release. -/
theorem c2_released_op_typeerror_cex :
    RelinKeys.save ⟨Option.none⟩ ⟨[], []⟩ ComprMode.deflate =
      .error .typeError ∧
    RelinKeys.save ⟨Option.none⟩ ⟨[], []⟩ ComprMode.deflate ≠
      .error .useAfterReleaseError := by
  refine ⟨rfl, ?_⟩
  intro hcontra
  simp [RelinKeys.save] at hcontra

/-- Claim C2 amended: for every modelled wrapper kind and every
kind-specific domain operation (save, load, property reads), calling the
operation on a released wrapper (empty instance slot) fails by throwing a
host TypeError — the null slot is dereferenced; there is no
UseAfterReleaseError guard in the code. -/
theorem c2_amended_released_ops_typeerror (h : Heap) (m : ComprMode)
    (s : String) (nps : NativeObj → Bool) (g : Nat → String) :
    RelinKeys.save ⟨Option.none⟩ h m = .error .typeError ∧
    RelinKeys.load ⟨Option.none⟩ h s = (h, .error .typeError) ∧
    PublicKey.save ⟨Option.none⟩ h = .error .typeError ∧
    PlainText.isZero ⟨Option.none⟩ h = .error .typeError ∧
    PlainText.save ⟨Option.none⟩ h m = .error .typeError ∧
    PlainText.load ⟨Option.none⟩ h s = (h, .error .typeError) ∧
    SealContext.parametersSet nps ⟨Option.none⟩ h = .error .typeError ∧
    EPQualifiers.parametersSet g nps ⟨Option.none⟩ h = .error .typeError ∧
    GaloisKeys.save ⟨Option.none⟩ h = .error .typeError :=
  ⟨rfl, rfl, rfl, rfl, rfl, rfl, rfl, rfl, rfl⟩

/-- Claim C3: saving a live RelinKeys object and loading the result into a
freshly constructed wrapper of the same kind succeeds, reproduces the
original native state observably (the loaded data equals the saved data),
and makes the save output of the loaded wrapper byte-identical to the original
save output.  The codec itself is the spec-modelled native encode/decode
pair. -/
theorem c3_save_load_roundtrip (h : Heap) (id : Nat) (d : String)
    (hid : h.get id = some ⟨d⟩) :
    RelinKeys.save ⟨some id⟩ h ComprMode.deflate =
      .ok (encode ComprMode.deflate d) ∧
    (RelinKeys.construct h).1.inst = some h.mem.length ∧
    (RelinKeys.load (RelinKeys.construct h).1 (RelinKeys.construct h).2
        (encode ComprMode.deflate d)).2 = .ok () ∧
    RelinKeys.save (RelinKeys.construct h).1
        (RelinKeys.load (RelinKeys.construct h).1 (RelinKeys.construct h).2
          (encode ComprMode.deflate d)).1 ComprMode.deflate =
      .ok (encode ComprMode.deflate d) ∧
    ((RelinKeys.load (RelinKeys.construct h).1 (RelinKeys.construct h).2
        (encode ComprMode.deflate d)).1).get h.mem.length = some ⟨d⟩ := by
  have hc : RelinKeys.construct h =
      (⟨some h.mem.length⟩, ⟨h.mem ++ [some ⟨""⟩], h.log⟩) := rfl
  have hg1 : (⟨h.mem ++ [some ⟨""⟩], h.log⟩ : Heap).get h.mem.length =
      some ⟨""⟩ := listGetD_concat_length h.mem (some ⟨""⟩)
  have hload : RelinKeys.load ⟨some h.mem.length⟩
      ⟨h.mem ++ [some ⟨""⟩], h.log⟩ (encode ComprMode.deflate d) =
      ((⟨h.mem ++ [some ⟨""⟩], h.log⟩ : Heap).set h.mem.length ⟨d⟩, .ok ()) := by
    simp [RelinKeys.load, Heap.loadFromString, hg1, decode_encode]
  have hg2 : ((⟨h.mem ++ [some ⟨""⟩], h.log⟩ : Heap).set h.mem.length
      ⟨d⟩).get h.mem.length = some ⟨d⟩ :=
    Heap.get_set_self _ _ _ _ hg1
  refine ⟨?_, ?_, ?_, ?_, ?_⟩
  · simp [RelinKeys.save, Heap.saveToString, hid]
  · rw [hc]
  · rw [hc, hload]
  · rw [hc, hload]
    simp [RelinKeys.save, Heap.saveToString, hg2]
  · rw [hc, hload]
    exact hg2

theorem c3_save_load_roundtrip_witness :
    RelinKeys.save ⟨some 0⟩ ⟨[some ⟨"K"⟩], []⟩ ComprMode.deflate =
      .ok (encode ComprMode.deflate "K") ∧
    (RelinKeys.load (RelinKeys.construct ⟨[some ⟨"K"⟩], []⟩).1
        (RelinKeys.construct ⟨[some ⟨"K"⟩], []⟩).2
        (encode ComprMode.deflate "K")).2 = .ok () ∧
    RelinKeys.save (RelinKeys.construct ⟨[some ⟨"K"⟩], []⟩).1
        (RelinKeys.load (RelinKeys.construct ⟨[some ⟨"K"⟩], []⟩).1
          (RelinKeys.construct ⟨[some ⟨"K"⟩], []⟩).2
          (encode ComprMode.deflate "K")).1 ComprMode.deflate =
      .ok (encode ComprMode.deflate "K") :=
  ⟨(c3_save_load_roundtrip ⟨[some ⟨"K"⟩], []⟩ 0 "K" rfl).1,
   (c3_save_load_roundtrip ⟨[some ⟨"K"⟩], []⟩ 0 "K" rfl).2.2.1,
   (c3_save_load_roundtrip ⟨[some ⟨"K"⟩], []⟩ 0 "K" rfl).2.2.2.1⟩

/-- Claim C6 is false: after a completed transfer — wrapper c2 (holding
handle 1) absorbs handle 0 still held by wrapper c1 — both wrappers hold
handle 0 durably, not merely during the transfer; and deleting through c1
afterwards leaves c2 dangling, so reading through c2 raises. -/
theorem c6_durable_alias_cex :
    (SealContext.injectRaw ⟨some 1⟩ ⟨[some ⟨"A"⟩, some ⟨"B"⟩], []⟩ 0).1.inst =
      some 0 ∧
    (⟨some 0⟩ : SealContext).inst = some 0 ∧
    SealContext.parametersSet (fun _ => true)
      (SealContext.injectRaw ⟨some 1⟩ ⟨[some ⟨"A"⟩, some ⟨"B"⟩], []⟩ 0).1
      (SealContext.delete ⟨some 0⟩
        (SealContext.injectRaw ⟨some 1⟩ ⟨[some ⟨"A"⟩, some ⟨"B"⟩], []⟩ 0).2).2 =
      .error (.nativeRaise 0) :=
  ⟨rfl, rfl, rfl⟩

/-- Claim C6 amended: a wrapper holds at most one handle at any instant
(the slot is a single optional reference), but handle exclusivity across
wrappers is NOT enforced: the transfer primitive receives only the raw
handle, so after dst absorbs the handle that src holds, dst aliases the
exact handle src still holds, durably; releasing through src then leaves
dst dangling, and reading through dst raises a native signal.  Exclusivity
is a caller obligation. -/
theorem c6_amended_alias_not_prevented (nps : NativeObj → Bool)
    (src dst : SealContext) (h : Heap) (id : Nat) (hsrc : src.inst = some id) :
    (dst.injectRaw h id).1.inst = src.inst ∧
    SealContext.parametersSet nps (dst.injectRaw h id).1
        (SealContext.delete src (dst.injectRaw h id).2).2 =
      .error (.nativeRaise id) := by
  obtain ⟨dsti⟩ := dst
  obtain ⟨srci⟩ := src
  subst hsrc
  have hinj : ∀ hh : Heap, (SealContext.injectRaw ⟨dsti⟩ hh id).1 =
      (⟨some id⟩ : SealContext) := by
    intro hh; cases dsti <;> rfl
  constructor
  · rw [hinj]
  · rw [hinj]
    have hdel : (SealContext.delete ⟨some id⟩
        (SealContext.injectRaw ⟨dsti⟩ h id).2).2 =
        ((SealContext.injectRaw ⟨dsti⟩ h id).2).free id := rfl
    rw [hdel]
    simp [SealContext.parametersSet, Heap.get_free_self]

theorem c6_amended_alias_witness :
    (SealContext.injectRaw (⟨some 1⟩ : SealContext)
        ⟨[some ⟨"A"⟩, some ⟨"B"⟩], []⟩ 0).1.inst =
      (⟨some 0⟩ : SealContext).inst ∧
    SealContext.parametersSet (fun _ => true)
        (SealContext.injectRaw (⟨some 1⟩ : SealContext)
          ⟨[some ⟨"A"⟩, some ⟨"B"⟩], []⟩ 0).1
        (SealContext.delete ⟨some 0⟩
          (SealContext.injectRaw (⟨some 1⟩ : SealContext)
            ⟨[some ⟨"A"⟩, some ⟨"B"⟩], []⟩ 0).2).2 =
      .error (.nativeRaise 0) :=
  c6_amended_alias_not_prevented (fun _ => true) ⟨some 0⟩ ⟨some 1⟩
    ⟨[some ⟨"A"⟩, some ⟨"B"⟩], []⟩ 0 rfl

/-- Claim C7: move transfers the handle of src into dst: with src holding a
live handle, move succeeds for every destination — empty or holding its own
handle, the latter being released by the inject step — as long as the
destination does not already hold the very handle being transferred (two
wrappers aliasing one handle, which the release of the old destination
handle would destroy); afterwards the src instance slot is absent and the
save output of the updated dst equals the pre-move save output of src.
Move on a src holding no handle fails with InvalidStateError.  The
GaloisKeys component is modelled from the spec (only its test file is under
src/). -/
theorem c7_move_transfers (dst src : GaloisKeys) (h : Heap) (id : Nat)
    (o : NativeObj) (hsrc : src.inst = some id) (halive : h.get id = some o)
    (hnoalias : dst.inst ≠ some id) :
    (∃ h1 : Heap,
      GaloisKeys.move dst src h = .ok (⟨some id⟩, ⟨Option.none⟩, h1) ∧
      GaloisKeys.save (⟨some id⟩ : GaloisKeys) h1 = GaloisKeys.save src h ∧
      GaloisKeys.save (⟨some id⟩ : GaloisKeys) h1 =
        .ok (encode ComprMode.deflate o.data)) ∧
    (∀ dst2 src2 : GaloisKeys, src2.inst = Option.none →
      GaloisKeys.move dst2 src2 h = .error .invalidStateError) := by
  obtain ⟨srci⟩ := src
  obtain ⟨dsti⟩ := dst
  cases hsrc
  constructor
  · cases dsti with
    | none =>
      refine ⟨h, rfl, rfl, ?_⟩
      simp [GaloisKeys.save, Heap.saveToString, halive]
    | some old =>
      have hne : id ≠ old := by
        intro he
        exact hnoalias (by rw [he])
      have hget : (h.free old).get id = h.get id := Heap.get_free_ne h id old hne
      refine ⟨h.free old, rfl, ?_, ?_⟩ <;>
        simp [GaloisKeys.save, Heap.saveToString, hget, halive]
  · intro dst2 src2 hsrc2
    obtain ⟨src2i⟩ := src2
    cases hsrc2
    rfl

theorem c7_move_transfers_witness :
    (∃ h1 : Heap,
      GaloisKeys.move ⟨some 1⟩ ⟨some 0⟩ ⟨[some ⟨"G"⟩, some ⟨"D"⟩], []⟩ =
        .ok (⟨some 0⟩, ⟨Option.none⟩, h1) ∧
      GaloisKeys.save (⟨some 0⟩ : GaloisKeys) h1 =
        GaloisKeys.save ⟨some 0⟩ ⟨[some ⟨"G"⟩, some ⟨"D"⟩], []⟩ ∧
      GaloisKeys.save (⟨some 0⟩ : GaloisKeys) h1 =
        .ok (encode ComprMode.deflate "G")) ∧
    GaloisKeys.move ⟨some 1⟩ ⟨Option.none⟩ ⟨[some ⟨"G"⟩, some ⟨"D"⟩], []⟩ =
      .error .invalidStateError :=
  ⟨(c7_move_transfers ⟨some 1⟩ ⟨some 0⟩ ⟨[some ⟨"G"⟩, some ⟨"D"⟩], []⟩ 0 ⟨"G"⟩
      rfl rfl (by decide)).1,
   (c7_move_transfers ⟨some 1⟩ ⟨some 0⟩ ⟨[some ⟨"G"⟩, some ⟨"D"⟩], []⟩ 0 ⟨"G"⟩
      rfl rfl (by decide)).2 ⟨some 1⟩ ⟨Option.none⟩ rfl⟩

/-- Claim C8 is false about the error kind: loading the corrupted string
from the test suite into a live RelinKeys wrapper fails, but the raw native
signal escapes (RelinKeys.load has no normalization and the repository
defines no DeserializationError); the claimed DeserializationError is not
what the caller observes. -/
theorem c8_corrupt_load_raw_signal_cex :
    (RelinKeys.load ⟨some 0⟩ ⟨[some ⟨""⟩], []⟩
        "XqEQAwUBAAAoAAAAAAAAAHicY2CgCHywj1sowMwKZEmgyQAAOaoCXw==").2 =
      .error (.nativeRaise loadFailPtr) ∧
    (RelinKeys.load ⟨some 0⟩ ⟨[some ⟨""⟩], []⟩
        "XqEQAwUBAAAoAAAAAAAAAHicY2CgCHywj1sowMwKZEmgyQAAOaoCXw==").2 ≠
      .error .deserializationError := by
  refine ⟨rfl, ?_⟩
  intro hcontra
  rw [show (RelinKeys.load ⟨some 0⟩ ⟨[some ⟨""⟩], []⟩
      "XqEQAwUBAAAoAAAAAAAAAHicY2CgCHywj1sowMwKZEmgyQAAOaoCXw==").2 =
      .error (.nativeRaise loadFailPtr) from rfl] at hcontra
  simp at hcontra

/-- Claim C8 amended: loading a corrupted or truncated encoding into a live
wrapper (RelinKeys or PlainText) always fails — the failure is the raw
native raise escaping the un-guarded load forwarder, not a
DeserializationError — and never partially populates: the heap is returned
unchanged and the wrapper slot is never reassigned by load. -/
theorem c8_amended_corrupt_load (w : RelinKeys) (p : PlainText) (h : Heap)
    (encoded : String) (id : Nat) (hbad : decode encoded = Option.none)
    (hw : w.inst = some id) (hp : p.inst = some id) :
    (RelinKeys.load w h encoded).1 = h ∧
    (PlainText.load p h encoded).1 = h ∧
    (∃ q : Nat, (RelinKeys.load w h encoded).2 = .error (.nativeRaise q)) ∧
    (RelinKeys.load w h encoded).2 ≠ .error .deserializationError ∧
    (RelinKeys.load w h encoded).2 ≠ .ok () := by
  obtain ⟨wi⟩ := w
  obtain ⟨pi⟩ := p
  cases hw
  cases hp
  cases hh : h.get id with
  | none =>
    refine ⟨?_, ?_, ⟨id, ?_⟩, ?_, ?_⟩ <;>
      simp [RelinKeys.load, PlainText.load, Heap.loadFromString, hh]
  | some o =>
    refine ⟨?_, ?_, ⟨loadFailPtr, ?_⟩, ?_, ?_⟩ <;>
      simp [RelinKeys.load, PlainText.load, Heap.loadFromString, hh, hbad]

theorem c8_amended_corrupt_load_witness :
    (RelinKeys.load ⟨some 0⟩ ⟨[some ⟨""⟩], []⟩ "!").1 =
      (⟨[some ⟨""⟩], []⟩ : Heap) ∧
    (RelinKeys.load ⟨some 0⟩ ⟨[some ⟨""⟩], []⟩ "!").2 ≠ .ok () :=
  ⟨(c8_amended_corrupt_load ⟨some 0⟩ ⟨some 0⟩ ⟨[some ⟨""⟩], []⟩ "!" 0
      (by decide) rfl rfl).1,
   (c8_amended_corrupt_load ⟨some 0⟩ ⟨some 0⟩ ⟨[some ⟨""⟩], []⟩ "!" 0
      (by decide) rfl rfl).2.2.2.2⟩

/-- Claim C9 is false: the Context parametersSet getter forwards the native
call with no try/catch, so when the native layer raises (here: a destroyed
handle, raising the numeric exception pointer 0) the caller observes the
raw native signal, not the output of the error normalizer (which would be
an Error carrying the looked-up message). -/
theorem c9_raw_signal_escapes_cex :
    SealContext.parametersSet (fun _ => true) ⟨some 0⟩ ⟨[Option.none], []⟩ =
      .error (.nativeRaise 0) ∧
    safeErr Nat.repr (.nativeRaise 0) = .errorMsg "0" ∧
    JSError.nativeRaise 0 ≠ .errorMsg "0" := by
  refine ⟨rfl, rfl, ?_⟩
  intro hcontra
  simp at hcontra

/-- Claim C9 amended: call sites that wrap the native call in try/catch
route the failure through the normalizer exactly once — a numeric native
raise surfaces as an Error carrying the looked-up message, shown for the
EncryptionParameterQualifiers parametersSet getter and the Evaluator
methods — but the bare Context property getters (parametersSet and its
siblings) have no catch and let the raw native signal escape
unnormalized. -/
theorem c9_amended_normalization_coverage (g : Nat → String)
    (nps : NativeObj → Bool) (h : Heap) (id : Nat)
    (hdead : h.get id = Option.none) :
    EPQualifiers.parametersSet g nps ⟨some id⟩ h = .error (.errorMsg (g id)) ∧
    SealContext.parametersSet nps ⟨some id⟩ h = .error (.nativeRaise id) ∧
    (∀ (nneg : String → String) (eid : Nat) (dst : CipherText),
      (Evaluator.negate g nneg ⟨some eid⟩ h ⟨Option.none⟩ (some dst)).2 =
        .error (.errorMsg (g loadFailPtr))) := by
  refine ⟨?_, ?_, ?_⟩
  · simp [EPQualifiers.parametersSet, tryCatchSafe, hdead, safeErr]
  · simp [SealContext.parametersSet, hdead]
  · intro nneg eid dst
    simp [Evaluator.negate, Heap.unaryInto, safeErr]

theorem c9_amended_normalization_witness :
    EPQualifiers.parametersSet Nat.repr (fun _ => true) ⟨some 0⟩
        ⟨[Option.none], []⟩ = .error (.errorMsg "0") ∧
    SealContext.parametersSet (fun _ => true) ⟨some 0⟩ ⟨[Option.none], []⟩ =
      .error (.nativeRaise 0) :=
  ⟨(c9_amended_normalization_coverage Nat.repr (fun _ => true)
      ⟨[Option.none], []⟩ 0 rfl).1,
   (c9_amended_normalization_coverage Nat.repr (fun _ => true)
      ⟨[Option.none], []⟩ 0 rfl).2.1⟩

/-- Claim C10 is false of the code, and the code contradicts its own doc
comments (a code bug): on a live evaluator with live operands,
(i) addPlain WITH a destination performs the native addPlain into it and
returns undefined, but (ii) addPlain WITHOUT a destination allocates the
temp wrapper and then throws a host TypeError by dereferencing the absent
destination argument — leaking the temp allocation — instead of computing
into the temp; (iii) cipherTransformFromNtt WITH a destination performs the
native inverse transform, but (iv) WITHOUT a destination it performs the
FORWARD transform into the returned temp, which differs from the result of
the inverse transform; (v) negate without a destination does conform to the
claimed pattern. -/
theorem c10_evaluator_destination_bugs :
    Evaluator.addPlain Nat.repr (fun a b => a ++ "+" ++ b) ⟨some 0⟩
        ⟨[some ⟨"E"⟩, some ⟨"c"⟩, some ⟨"p"⟩, some ⟨"d"⟩], []⟩
        ⟨some 1⟩ ⟨some 2⟩ (some ⟨some 3⟩) =
      (⟨[some ⟨"E"⟩, some ⟨"c"⟩, some ⟨"p"⟩, some ⟨"c+p"⟩], []⟩,
        .ok Option.none) ∧
    Evaluator.addPlain Nat.repr (fun a b => a ++ "+" ++ b) ⟨some 0⟩
        ⟨[some ⟨"E"⟩, some ⟨"c"⟩, some ⟨"p"⟩, some ⟨"d"⟩], []⟩
        ⟨some 1⟩ ⟨some 2⟩ Option.none =
      (⟨[some ⟨"E"⟩, some ⟨"c"⟩, some ⟨"p"⟩, some ⟨"d"⟩, some ⟨""⟩], []⟩,
        .error .typeError) ∧
    Evaluator.cipherTransformFromNtt Nat.repr (fun s => "T" ++ s)
        (fun s => "F" ++ s) ⟨some 0⟩
        ⟨[some ⟨"E"⟩, some ⟨"c"⟩, some ⟨"p"⟩, some ⟨"d"⟩], []⟩
        ⟨some 1⟩ (some ⟨some 3⟩) =
      (⟨[some ⟨"E"⟩, some ⟨"c"⟩, some ⟨"p"⟩, some ⟨"Fc"⟩], []⟩,
        .ok Option.none) ∧
    Evaluator.cipherTransformFromNtt Nat.repr (fun s => "T" ++ s)
        (fun s => "F" ++ s) ⟨some 0⟩
        ⟨[some ⟨"E"⟩, some ⟨"c"⟩, some ⟨"p"⟩, some ⟨"d"⟩], []⟩
        ⟨some 1⟩ Option.none =
      (⟨[some ⟨"E"⟩, some ⟨"c"⟩, some ⟨"p"⟩, some ⟨"d"⟩, some ⟨"Tc"⟩], []⟩,
        .ok (some ⟨some 4⟩)) ∧
    (⟨"Tc"⟩ : NativeObj) ≠ ⟨"Fc"⟩ ∧
    Evaluator.negate Nat.repr (fun s => "N" ++ s) ⟨some 0⟩
        ⟨[some ⟨"E"⟩, some ⟨"c"⟩, some ⟨"p"⟩, some ⟨"d"⟩], []⟩
        ⟨some 1⟩ Option.none =
      (⟨[some ⟨"E"⟩, some ⟨"c"⟩, some ⟨"p"⟩, some ⟨"d"⟩, some ⟨"Nc"⟩], []⟩,
        .ok (some ⟨some 4⟩)) := by
  refine ⟨rfl, rfl, rfl, rfl, ?_, rfl⟩
  intro hcontra
  simp at hcontra

end NodeSeal
